import Mathlib

/-!
Verification of the metal0 benchmark corpus.

Each Rust benchmark file is embedded shallowly: pure functions become Lean
functions on `Nat`, with machine-integer wraparound made explicit as `% 2^w`
where the source type could overflow (`u64`/`i64` → `% 2^64`, `i32` → `% 2^32`,
twos-complement bit patterns of the nonnegative values that actually occur).
External effects (file reads, regex engines, timers) are passed in as explicit
parameters or `Option` values.
-/

/-- 2^64, the modulus of `u64`/`i64` wraparound arithmetic. -/
def U64MOD : Nat := 18446744073709551616

/-- 2^32, the modulus of `u32`/`i32` wraparound arithmetic. -/
def U32MOD : Nat := 4294967296

theorem U64MOD_eq : U64MOD = 2 ^ 64 := by decide

theorem U32MOD_eq : U32MOD = 2 ^ 32 := by decide

/-! ## src/benchmarks/fib/fib.rs

`fn fib(n: u64) -> u64 { if n <= 1 { n } else { fib(n - 1) + fib(n - 2) } }`
The `u64` addition wraps modulo 2^64 (release-mode Rust semantics). -/

def fib : Nat → Nat
  | 0 => 0
  | 1 => 1
  | n + 2 => (fib (n + 1) + fib n) % U64MOD

/-! ## src/benchmarks/rust/fibonacci.rs

`fn fibonacci(n: i32) -> i32 { if n <= 1 { return n; } fibonacci(n-1) + fibonacci(n-2) }`
embedded on the nonnegative inputs it is called with; the `i32` addition wraps
modulo 2^32 on the twos-complement bit pattern. -/

def fibonacci : Nat → Nat
  | 0 => 0
  | 1 => 1
  | n + 2 => (fibonacci (n + 1) + fibonacci n) % U32MOD

/-! ## src/benchmarks/rust/fibonacci_tail.rs

`fn fib_tail(n: u64, a: u64, b: u64) -> u64 { if n == 0 { a } else { fib_tail(n - 1, b, a + b) } }`
with the `u64` addition `a + b` wrapping modulo 2^64. -/

def fib_tail : Nat → Nat → Nat → Nat
  | 0, a, _ => a
  | n + 1, a, b => fib_tail n b ((a + b) % U64MOD)

/-! Relating the embedded benchmarks to the mathematical Fibonacci sequence. -/

theorem fib_eq_fib_mod (n : Nat) : fib n = Nat.fib n % U64MOD := by
  induction n using Nat.twoStepInduction with
  | zero => rfl
  | one => rfl
  | more n ih1 ih2 =>
    show (fib (n + 1) + fib n) % U64MOD = _
    rw [ih1, ih2, Nat.fib_add_two, Nat.add_mod (Nat.fib n) (Nat.fib (n + 1)),
      Nat.add_comm (Nat.fib (n + 1) % U64MOD)]

theorem fibonacci_eq_fib_mod (n : Nat) : fibonacci n = Nat.fib n % U32MOD := by
  induction n using Nat.twoStepInduction with
  | zero => rfl
  | one => rfl
  | more n ih1 ih2 =>
    show (fibonacci (n + 1) + fibonacci n) % U32MOD = _
    rw [ih1, ih2, Nat.fib_add_two, Nat.add_mod (Nat.fib n) (Nat.fib (n + 1)),
      Nat.add_comm (Nat.fib (n + 1) % U32MOD)]

theorem fib_tail_formula (n : Nat) :
    ∀ a b : Nat, a < U64MOD → b < U64MOD → 1 ≤ n →
      fib_tail n a b = (a * Nat.fib (n - 1) + b * Nat.fib n) % U64MOD := by
  induction n with
  | zero => intro a b _ _ hn; omega
  | succ n ih =>
    intro a b ha hb _
    match n, ih with
    | 0, _ =>
      show b = (a * Nat.fib 0 + b * Nat.fib 1) % U64MOD
      simp [Nat.fib, Nat.mod_eq_of_lt hb]
    | m + 1, ih =>
      show fib_tail (m + 1) b ((a + b) % U64MOD) = _
      rw [ih b ((a + b) % U64MOD) hb (Nat.mod_lt _ (by decide)) (Nat.le_add_left 1 m)]
      have hfib : Nat.fib (m + 2) = Nat.fib m + Nat.fib (m + 1) := Nat.fib_add_two
      have h1 : (b * Nat.fib m + (a + b) % U64MOD * Nat.fib (m + 1)) % U64MOD
          = (b * Nat.fib m + (a + b) * Nat.fib (m + 1)) % U64MOD := by
        rw [Nat.add_mod, Nat.mod_mul_mod, ← Nat.add_mod]
      simp only [Nat.add_sub_cancel]
      rw [h1]
      congr 1
      rw [hfib]
      ring

theorem fib_tail_zero_one (n : Nat) : fib_tail n 0 1 = fib n := by
  match n with
  | 0 => rfl
  | m + 1 =>
    rw [fib_tail_formula (m + 1) 0 1 (by decide) (by decide) (Nat.le_add_left 1 m),
      fib_eq_fib_mod]
    simp

/-- C8: the tail-recursive accumulator Fibonacci (`fib_tail` from
src/benchmarks/rust/fibonacci_tail.rs) agrees with the naive doubly-recursive
`fib` from src/benchmarks/fib/fib.rs under u64 wrapping arithmetic: for every
`n`, `fib_tail n 0 1 = fib n`, both equal the mathematical Fibonacci number
modulo 2^64, and more generally for `n ≥ 1` and in-range accumulators,
`fib_tail n a b = (a * Fib (n-1) + b * Fib n) mod 2^64`. -/
theorem c8_fib_tail_equiv (n : Nat) :
    fib_tail n 0 1 = fib n ∧ fib n = Nat.fib n % U64MOD ∧
    (∀ a b : Nat, a < U64MOD → b < U64MOD → 1 ≤ n →
      fib_tail n a b = (a * Nat.fib (n - 1) + b * Nat.fib n) % U64MOD) :=
  ⟨fib_tail_zero_one n, fib_eq_fib_mod n, fib_tail_formula n⟩

theorem c8_fib_tail_equiv_witness :
    fib_tail 5 0 1 = fib 5 ∧
    fib_tail 5 2 3 = (2 * Nat.fib 4 + 3 * Nat.fib 5) % U64MOD :=
  ⟨(c8_fib_tail_equiv 5).1,
   (c8_fib_tail_equiv 5).2.2 2 3 (by decide) (by decide) (by decide)⟩

/-- C9: the two naive recursive Fibonacci benchmarks print the same value:
`fibonacci 45` (i32, src/benchmarks/rust/fibonacci.rs) and `fib 45` (u64,
src/benchmarks/fib/fib.rs) both evaluate to 1134903170, and no addition in
either recursion tree overflows its type: every intermediate sum is a
Fibonacci number `Fib k` with `k ≤ 45`, bounded by 1134903170 < 2^31 - 1. -/
theorem c9_fibonacci45 :
    fibonacci 45 = 1134903170 ∧ fib 45 = 1134903170 ∧
    1134903170 < 2 ^ 31 - 1 ∧
    ∀ k : Nat, k ≤ 45 → Nat.fib k ≤ 1134903170 := by
  refine ⟨?_, ?_, by decide, fun k hk => ?_⟩
  · rw [fibonacci_eq_fib_mod]; decide
  · rw [fib_eq_fib_mod]; decide
  · calc Nat.fib k ≤ Nat.fib 45 := Nat.fib_mono hk
    _ = 1134903170 := by decide

theorem c9_fibonacci45_witness :
    fibonacci 45 = 1134903170 ∧ Nat.fib 10 ≤ 1134903170 :=
  ⟨c9_fibonacci45.1, c9_fibonacci45.2.2.2 10 (by decide)⟩

/-! ## Wrapping i64 accumulation

`wsum64 l` models a Rust loop `acc += x` over the elements of `l`, where each
element and each addition is an `i64` operation wrapping modulo 2^64 (the
twos-complement bit pattern of the nonnegative values that occur here). -/

def wrap64 (x : Nat) : Nat := x % U64MOD

def wsum64 (l : List Nat) : Nat :=
  l.foldl (fun acc x => wrap64 (acc + wrap64 x)) 0

theorem wsum64_foldl (l : List Nat) :
    ∀ acc : Nat, acc < U64MOD →
      l.foldl (fun a x => wrap64 (a + wrap64 x)) acc = (acc + l.sum) % U64MOD := by
  induction l with
  | nil => intro acc hacc; simp [Nat.mod_eq_of_lt hacc]
  | cons x xs ih =>
    intro acc hacc
    show xs.foldl _ (wrap64 (acc + wrap64 x)) = _
    rw [ih (wrap64 (acc + wrap64 x)) (Nat.mod_lt _ (by decide))]
    show ((acc + x % U64MOD) % U64MOD + xs.sum) % U64MOD = (acc + (x :: xs).sum) % U64MOD
    rw [List.sum_cons]
    simp only [U64MOD]
    omega

theorem wsum64_eq_sum_mod (l : List Nat) : wsum64 l = l.sum % U64MOD := by
  have h := wsum64_foldl l 0 (by decide)
  simpa [wsum64] using h

/-- Gauss-style closed form for the arithmetic sums used by the CPU benchmarks:
twice the sum of `i * c` for `i` in `0..n` is `n * (n - 1) * c`. -/
theorem two_mul_sum_range_mul (c n : Nat) :
    2 * ((List.range n).map (fun i => i * c)).sum = n * (n - 1) * c := by
  induction n with
  | zero => simp
  | succ n ih =>
    rw [List.range_succ, List.map_append, List.sum_append, Nat.mul_add, ih]
    simp only [List.map_cons, List.map_nil, List.sum_cons, List.sum_nil, Nat.add_zero]
    match n with
    | 0 => simp
    | m + 1 => simp only [Nat.add_sub_cancel]; ring

/-! ## src/benchmarks/asyncio/rust_bench/src/main.rs

CPU-bound fan-out/fan-in: `worker(task_id)` sums `i * task_id` over
`i in 0..WORK_PER_TASK` in an `i64` accumulator; `main` sums `worker(t)` over
`t in 0..NUM_TASKS` with a rayon parallel iterator. The parallel sum is
modelled as: the task range is split into chunks in any order (work stealing),
each chunk is summed, and the chunk results are summed. `seqTotal` is the
sequential reference loop over the same inputs. `workerAcc t k` is the exact
(unwrapped) value of the worker accumulator after `k` iterations, and
`totalAcc j` the exact value of the final accumulator after `j` workers. -/

namespace FanOut

def NUM_TASKS : Nat := 1000

def WORK_PER_TASK : Nat := 10000

def worker (task_id : Nat) : Nat :=
  wsum64 ((List.range WORK_PER_TASK).map (fun i => i * task_id))

def seqTotal : Nat := wsum64 ((List.range NUM_TASKS).map worker)

def parTotal (chunks : List (List Nat)) : Nat :=
  wsum64 (chunks.map (fun c => wsum64 (c.map worker)))

def workerAcc (t k : Nat) : Nat := ((List.range k).map (fun i => i * t)).sum

def totalAcc (j : Nat) : Nat :=
  ((List.range j).map (fun t => workerAcc t WORK_PER_TASK)).sum

theorem workerAcc_closed (t : Nat) : workerAcc t WORK_PER_TASK = t * 49995000 := by
  have h := two_mul_sum_range_mul t WORK_PER_TASK
  have h2 : 2 * workerAcc t WORK_PER_TASK = 2 * (t * 49995000) := by
    rw [workerAcc, h]; show 10000 * 9999 * t = _; ring
  omega

theorem worker_eq (t : Nat) : worker t = t * 49995000 % U64MOD := by
  rw [worker, wsum64_eq_sum_mod]
  show workerAcc t WORK_PER_TASK % U64MOD = _
  rw [workerAcc_closed]

theorem worker_eq_of_lt (t : Nat) (h : t < 1000) : worker t = t * 49995000 := by
  rw [worker_eq, Nat.mod_eq_of_lt]
  calc t * 49995000 ≤ 999 * 49995000 := Nat.mul_le_mul_right _ (by omega)
  _ < U64MOD := by decide

theorem two_mul_totalAcc (j : Nat) : 2 * totalAcc j = j * (j - 1) * 49995000 := by
  have hmap : (List.range j).map (fun t => workerAcc t WORK_PER_TASK)
      = (List.range j).map (fun t => t * 49995000) :=
    List.map_congr_left (fun t _ => workerAcc_closed t)
  rw [totalAcc, hmap]
  exact two_mul_sum_range_mul 49995000 j

theorem sum_workers_eq :
    ((List.range NUM_TASKS).map worker).sum = 24972502500000 := by
  have hmap : (List.range NUM_TASKS).map worker
      = (List.range NUM_TASKS).map (fun t => workerAcc t WORK_PER_TASK) :=
    List.map_congr_left (fun t ht => by
      rw [worker_eq_of_lt t (List.mem_range.mp ht), workerAcc_closed])
  rw [hmap]
  have h := two_mul_totalAcc NUM_TASKS
  rw [totalAcc] at h
  have hc : NUM_TASKS * (NUM_TASKS - 1) * 49995000 = 49945005000000 := by decide
  rw [hc] at h
  omega

theorem seqTotal_eq : seqTotal = 24972502500000 := by
  rw [seqTotal, wsum64_eq_sum_mod, sum_workers_eq]
  decide

end FanOut

theorem sum_map_mod64 (l : List Nat) :
    (l.map (fun x => x % U64MOD)).sum % U64MOD = l.sum % U64MOD := by
  induction l with
  | nil => rfl
  | cons x xs ih =>
    simp only [List.map_cons, List.sum_cons]
    simp only [U64MOD] at ih ⊢
    omega

/-- C1: in the CPU fan-out/fan-in benchmark (src/benchmarks/asyncio/rust_bench/
src/main.rs), the parallel-computed total — the task range split into chunks in
any order by the work-stealing pool, each chunk summed, chunk results summed —
equals the total computed by the sequential reference loop summing `worker t`
over `t in 0..1000`. -/
theorem c1_fanout_par_eq_seq (chunks : List (List Nat))
    (h : chunks.flatten.Perm (List.range FanOut.NUM_TASKS)) :
    FanOut.parTotal chunks = FanOut.seqTotal := by
  rw [FanOut.parTotal, FanOut.seqTotal, wsum64_eq_sum_mod, wsum64_eq_sum_mod]
  have h1 : chunks.map (fun c => wsum64 (c.map FanOut.worker))
      = (chunks.map (fun c => (c.map FanOut.worker).sum)).map (fun x => x % U64MOD) := by
    rw [List.map_map]
    exact List.map_congr_left (fun c _ => wsum64_eq_sum_mod _)
  rw [h1, sum_map_mod64]
  have h2 : chunks.map (fun c => (c.map FanOut.worker).sum)
      = (chunks.map (List.map FanOut.worker)).map List.sum := by
    rw [List.map_map]; rfl
  have h3 : (chunks.map (fun c => (c.map FanOut.worker).sum)).sum
      = ((List.range FanOut.NUM_TASKS).map FanOut.worker).sum := by
    rw [h2, ← List.sum_flatten, ← List.map_flatten]
    exact (h.map FanOut.worker).sum_eq
  rw [h3]

theorem c1_fanout_par_eq_seq_witness :
    ([List.range FanOut.NUM_TASKS].flatten.Perm (List.range FanOut.NUM_TASKS)) ∧
    FanOut.parTotal [List.range FanOut.NUM_TASKS] = FanOut.seqTotal :=
  ⟨by simp, c1_fanout_par_eq_seq [List.range FanOut.NUM_TASKS] (by simp)⟩

/-- C10: in src/benchmarks/asyncio/rust_bench/src/main.rs, `worker t` equals
`t * 49995000` exactly for every `t < 1000`, the total is
499500 * 49995000 = 24972502500000, and no i64 addition or multiplication
overflows: every worker accumulator value, every product `i * t`, and every
value of the final accumulator stays below 2^63. -/
theorem c10_fanout_numerics :
    (∀ t, t < 1000 → FanOut.worker t = t * 49995000) ∧
    FanOut.seqTotal = 24972502500000 ∧
    (∀ t k, t < 1000 → k ≤ 10000 → FanOut.workerAcc t k < 2 ^ 63) ∧
    (∀ t i, t < 1000 → i < 10000 → i * t < 2 ^ 63) ∧
    (∀ j, j ≤ 1000 → FanOut.totalAcc j < 2 ^ 63) := by
  refine ⟨FanOut.worker_eq_of_lt, FanOut.seqTotal_eq, fun t k ht hk => ?_,
    fun t i ht hi => ?_, fun j hj => ?_⟩
  · have h : 2 * FanOut.workerAcc t k = k * (k - 1) * t := two_mul_sum_range_mul t k
    have hb : k * (k - 1) * t ≤ 10000 * 9999 * 999 :=
      Nat.mul_le_mul (Nat.mul_le_mul hk (by omega)) (by omega)
    omega
  · have hb : i * t ≤ 9999 * 999 := Nat.mul_le_mul (by omega) (by omega)
    omega
  · have h : 2 * FanOut.totalAcc j = j * (j - 1) * 49995000 := FanOut.two_mul_totalAcc j
    have hb : j * (j - 1) * 49995000 ≤ 1000 * 999 * 49995000 :=
      Nat.mul_le_mul_right _ (Nat.mul_le_mul hj (by omega))
    omega

theorem c10_fanout_numerics_witness :
    FanOut.worker 3 = 3 * 49995000 ∧ FanOut.workerAcc 999 10000 < 2 ^ 63 ∧
    999 * 999 < 2 ^ 63 ∧ FanOut.totalAcc 1000 < 2 ^ 63 :=
  ⟨c10_fanout_numerics.1 3 (by decide),
   c10_fanout_numerics.2.2.1 999 10000 (by decide) (by decide),
   c10_fanout_numerics.2.2.2.1 999 999 (by decide) (by decide),
   c10_fanout_numerics.2.2.2.2 1000 (by decide)⟩

/-! ## src/benchmarks/asyncio/rust_bench/src/bin/bench_io.rs

I/O-bound benchmark: `worker(task_id)` sleeps 1ms and returns its own task id;
`main` spawns `worker i` for `i in 0..NUM_TASKS` and accumulates the joined
results with an `i64` `total += handle.await.unwrap()` loop. The sleep has no
effect on the returned value. -/

namespace BenchIo

def NUM_TASKS : Nat := 10000

def worker (task_id : Nat) : Nat := task_id

def total : Nat := wsum64 ((List.range NUM_TASKS).map worker)

end BenchIo

/-- C4: in the I/O-bound benchmark, the reported total equals the sum of the
per-unit results — each task `worker i` returns its own id `i` — and that sum
over `i in 0..10000` is 49995000. -/
theorem c4_benchio_total :
    (∀ i, BenchIo.worker i = i) ∧
    BenchIo.total = ((List.range BenchIo.NUM_TASKS).map BenchIo.worker).sum ∧
    BenchIo.total = 49995000 := by
  have hmap : (List.range BenchIo.NUM_TASKS).map BenchIo.worker
      = (List.range BenchIo.NUM_TASKS).map (fun i => i * 1) :=
    List.map_congr_left (fun i _ => (Nat.mul_one i).symm)
  have h := two_mul_sum_range_mul 1 BenchIo.NUM_TASKS
  have hsum : ((List.range BenchIo.NUM_TASKS).map BenchIo.worker).sum = 49995000 := by
    rw [hmap]
    have hc : BenchIo.NUM_TASKS * (BenchIo.NUM_TASKS - 1) * 1 = 99990000 := by decide
    rw [hc] at h
    omega
  refine ⟨fun i => rfl, ?_, ?_⟩ <;> rw [BenchIo.total, wsum64_eq_sum_mod, hsum] <;> decide

/-! ## SHA-256 (the `sha2` crate primitive used by bench_cpu.rs)

Executable embedding of FIPS 180-4 SHA-256 over byte lists (bytes are `Nat`
values below 256, words are `Nat` values below 2^32). Only the digest length
matters for the claims below, but the function is embedded in full. -/

namespace Sha256

def rotr (n x : Nat) : Nat := ((x >>> n) ||| (x <<< (32 - n))) % U32MOD

def bigS0 (x : Nat) : Nat := (rotr 2 x) ^^^ (rotr 13 x) ^^^ (rotr 22 x)

def bigS1 (x : Nat) : Nat := (rotr 6 x) ^^^ (rotr 11 x) ^^^ (rotr 25 x)

def smallS0 (x : Nat) : Nat := (rotr 7 x) ^^^ (rotr 18 x) ^^^ (x >>> 3)

def smallS1 (x : Nat) : Nat := (rotr 17 x) ^^^ (rotr 19 x) ^^^ (x >>> 10)

def ch (x y z : Nat) : Nat := (x &&& y) ^^^ ((x ^^^ 4294967295) &&& z)

def maj (x y z : Nat) : Nat := (x &&& y) ^^^ (x &&& z) ^^^ (y &&& z)

def K : List Nat :=
  [1116352408, 1899447441, 3049323471, 3921009573, 961987163, 1508970993,
   2453635748, 2870763221, 3624381080, 310598401, 607225278, 1426881987,
   1925078388, 2162078206, 2614888103, 3248222580, 3835390401, 4022224774,
   264347078, 604807628, 770255983, 1249150122, 1555081692, 1996064986,
   2554220882, 2821834349, 2952996808, 3210313671, 3336571891, 3584528711,
   113926993, 338241895, 666307205, 773529912, 1294757372, 1396182291,
   1695183700, 1986661051, 2177026350, 2456956037, 2730485921, 2820302411,
   3259730800, 3345764771, 3516065817, 3600352804, 4094571909, 275423344,
   430227734, 506948616, 659060556, 883997877, 958139571, 1322822218,
   1537002063, 1747873779, 1955562222, 2024104815, 2227730452, 2361852424,
   2428436474, 2756734187, 3204031479, 3329325298]

structure HashState where
  h0 : Nat
  h1 : Nat
  h2 : Nat
  h3 : Nat
  h4 : Nat
  h5 : Nat
  h6 : Nat
  h7 : Nat

def INIT : HashState :=
  ⟨1779033703, 3144134277, 1013904242, 2773480762,
   1359893119, 2600822924, 528734635, 1541459225⟩

/-- Message-schedule extension: `rws` holds the schedule so far, most recent
word first; `W[t] = σ1 W[t-2] + W[t-7] + σ0 W[t-15] + W[t-16] mod 2^32`. -/
def schedStep : Nat → List Nat → List Nat
  | 0, rws => rws
  | k + 1, rws =>
    schedStep k
      (((smallS1 (rws.getD 1 0) + rws.getD 6 0 + smallS0 (rws.getD 14 0)
        + rws.getD 15 0) % U32MOD) :: rws)

def schedule (block : List Nat) : List Nat := (schedStep 48 block.reverse).reverse

def roundStep (s : HashState) (kw : Nat × Nat) : HashState :=
  let t1 := (s.h7 + bigS1 s.h4 + ch s.h4 s.h5 s.h6 + kw.1 + kw.2) % U32MOD
  let t2 := (bigS0 s.h0 + maj s.h0 s.h1 s.h2) % U32MOD
  ⟨(t1 + t2) % U32MOD, s.h0, s.h1, s.h2, (s.h3 + t1) % U32MOD, s.h4, s.h5, s.h6⟩

def compress (s : HashState) (block : List Nat) : HashState :=
  let t := (K.zip (schedule (toWords block))).foldl roundStep s
  ⟨(s.h0 + t.h0) % U32MOD, (s.h1 + t.h1) % U32MOD, (s.h2 + t.h2) % U32MOD,
   (s.h3 + t.h3) % U32MOD, (s.h4 + t.h4) % U32MOD, (s.h5 + t.h5) % U32MOD,
   (s.h6 + t.h6) % U32MOD, (s.h7 + t.h7) % U32MOD⟩
where
  toWords : List Nat → List Nat
    | b0 :: b1 :: b2 :: b3 :: rest =>
      ((b0 <<< 24) ||| (b1 <<< 16) ||| (b2 <<< 8) ||| b3) :: toWords rest
    | _ => []

/-- The 8-byte big-endian encoding of the message bit length. -/
def lenBytes64 (n : Nat) : List Nat :=
  [(n >>> 56) % 256, (n >>> 48) % 256, (n >>> 40) % 256, (n >>> 32) % 256,
   (n >>> 24) % 256, (n >>> 16) % 256, (n >>> 8) % 256, n % 256]

/-- FIPS 180-4 padding: a 128 byte, zeros to 56 mod 64, the bit length. -/
def pad (msg : List Nat) : List Nat :=
  let L := msg.length
  let r := (L + 1) % 64
  let zeros := if r ≤ 56 then 56 - r else 120 - r
  msg ++ 128 :: (List.replicate zeros 0 ++ lenBytes64 (8 * L))

def toBlocks : List Nat → List (List Nat)
  | [] => []
  | x :: rest => ((x :: rest).take 64) :: toBlocks ((x :: rest).drop 64)
termination_by l => l.length
decreasing_by simp only [List.length_drop, List.length_cons]; omega

def wordBytes (w : Nat) : List Nat :=
  [(w >>> 24) % 256, (w >>> 16) % 256, (w >>> 8) % 256, w % 256]

def digest (s : HashState) : List Nat :=
  wordBytes s.h0 ++ wordBytes s.h1 ++ wordBytes s.h2 ++ wordBytes s.h3 ++
  wordBytes s.h4 ++ wordBytes s.h5 ++ wordBytes s.h6 ++ wordBytes s.h7

def sha256 (msg : List Nat) : List Nat :=
  digest ((toBlocks (pad msg)).foldl compress INIT)

theorem digest_length (s : HashState) : (digest s).length = 32 := by
  simp [digest, wordBytes]

theorem sha256_length (msg : List Nat) : (sha256 msg).length = 32 :=
  digest_length _

end Sha256

/-- The lowercase-hex digit for a value below 16, as in the lowercase-hex Rust formatting. -/
def hexDigit (n : Nat) : Char :=
  if n < 10 then Char.ofNat (48 + n) else Char.ofNat (87 + n)

/-- Each byte prints as exactly two hex digits (the zero-padded per-byte
formatting of the lowercase-hex rendering of a 32-byte digest). -/
def hexChars : List Nat → List Char
  | [] => []
  | b :: bs => hexDigit (b / 16) :: hexDigit (b % 16) :: hexChars bs

theorem hexChars_length (l : List Nat) : (hexChars l).length = 2 * l.length := by
  induction l with
  | nil => rfl
  | cons b bs ih => simp [hexChars, ih]; ring

/-! ## src/benchmarks/asyncio/rust_bench/src/bin/bench_cpu.rs

`do_work(worker_id, iterations)` feeds the decimal strings of
`worker_id + i` for `i in 0..iterations` into one SHA-256 hasher, then returns
the length of the lowercase-hex rendering of the digest. `main` compares the
single sequential call `do_work(0, NUM_WORKERS * WORK_PER_WORKER)` against the
rayon-parallel sum of `do_work(id, WORK_PER_WORKER)` over `id in 0..NUM_WORKERS`. -/

namespace BenchCpu

def NUM_WORKERS : Nat := 8

def WORK_PER_WORKER : Nat := 50000

/-- The ASCII bytes of the decimal rendering of `n` (Rust `n.to_string().as_bytes()`). -/
def decimalBytes (n : Nat) : List Nat := (Nat.repr n).toList.map Char.toNat

def do_work (worker_id iterations : Nat) : Nat :=
  let msg := ((List.range iterations).map (fun i => decimalBytes (worker_id + i))).flatten
  (String.mk (hexChars (Sha256.sha256 msg))).length

/-- Sequential reference: one worker does all the work. -/
def seqTotal : Nat := do_work 0 (NUM_WORKERS * WORK_PER_WORKER)

/-- Parallel: `NUM_WORKERS` workers split the work; their results are summed
(usize accumulation, wrapping modulo 2^64). -/
def parTotal : Nat :=
  wsum64 ((List.range NUM_WORKERS).map (fun id => do_work id WORK_PER_WORKER))

theorem do_work_eq (worker_id iterations : Nat) : do_work worker_id iterations = 64 := by
  show (String.mk (hexChars (Sha256.sha256 _))).length = 64
  show (hexChars (Sha256.sha256 _)).length = 64
  rw [hexChars_length, Sha256.sha256_length]

theorem parTotal_eq : parTotal = 512 := by
  rw [parTotal,
    List.map_congr_left (fun id _ => do_work_eq id WORK_PER_WORKER)]
  decide

theorem seqTotal_eq64 : seqTotal = 64 := do_work_eq 0 (NUM_WORKERS * WORK_PER_WORKER)

end BenchCpu

/-- C2 counterexample: in bench_cpu.rs the parallel-computed total does NOT
equal the sequential reference. Every `do_work` call returns 64 (the hex length
of a 32-byte SHA-256 digest), so the parallel total is 8 * 64 = 512 while the
sequential reference `do_work 0 400000` is 64. -/
theorem c2_bench_cpu_counterexample :
    BenchCpu.parTotal = 512 ∧ BenchCpu.seqTotal = 64 ∧
    BenchCpu.parTotal ≠ BenchCpu.seqTotal := by
  refine ⟨BenchCpu.parTotal_eq, BenchCpu.seqTotal_eq64, ?_⟩
  rw [BenchCpu.parTotal_eq, BenchCpu.seqTotal_eq64]
  decide

/-- C2 amended: `do_work` returns the hex length of the digest, 64 regardless of its
arguments, so the parallel-computed total is `NUM_WORKERS * 64 = 512`, which is
`NUM_WORKERS` times the sequential reference `do_work 0 (8 * 50000) = 64` — the
two totals differ (the sequential reference performs the same amount of hashing
but contributes a single summand). -/
theorem c2_bench_cpu_amended :
    (∀ w n, BenchCpu.do_work w n = 64) ∧
    BenchCpu.parTotal = BenchCpu.NUM_WORKERS * BenchCpu.seqTotal :=
  ⟨BenchCpu.do_work_eq, by rw [BenchCpu.parTotal_eq, BenchCpu.seqTotal_eq64]; decide⟩

/-! ## Regex benchmarks: src/packages/regex/bench_rust.rs and bench_rust_realistic.rs

The regex engine is external (the `regex` crate); it enters the embedding as
parameters: a compile function `String → Option RE` (`Regex::new`, `none` on
compile error) and a deterministic match-count function `RE → String → Nat`
(`find_iter(text)` collected or counted). `benchmark_pattern` differs between
the two files in how a compile failure is handled: bench_rust.rs prints
"COMPILE FAILED" and returns, bench_rust_realistic.rs calls `.unwrap()`, which
panics and aborts the whole process. -/

inductive BenchOutcome where
  | ran (matchCount : Nat)
  | skipped (msg : String)
  | panicked (msg : String)
deriving DecidableEq

namespace BenchRust

def benchmark_pattern (RE : Type) (compile : String → Option RE)
    (countMatches : RE → String → Nat) (name pattern text : String)
    (iterations : Nat) : BenchOutcome :=
  match compile pattern with
  | none => BenchOutcome.skipped (name ++ " COMPILE FAILED")
  | some regex =>
    let _warmup := (List.range 100).map (fun _ => countMatches regex text)
    let match_count := countMatches regex text
    let _bench := (List.range iterations).map (fun _ => countMatches regex text)
    BenchOutcome.ran match_count

/-- The `for bench in benchmarks` loop of `main`: one outcome per pattern. -/
def run (RE : Type) (compile : String → Option RE)
    (countMatches : RE → String → Nat) (text : String)
    (pairs : List (String × String)) : List BenchOutcome :=
  pairs.map (fun bp => benchmark_pattern RE compile countMatches bp.1 bp.2 text 10000)

end BenchRust

namespace BenchRealistic

def benchmark_pattern (RE : Type) (compile : String → Option RE)
    (countMatches : RE → String → Nat) (_name pattern text : String)
    (iterations : Nat) : BenchOutcome :=
  match compile pattern with
  | none => BenchOutcome.panicked ("unwrap on Err: regex compile failed")
  | some re =>
    let match_count := countMatches re text
    let _bench := (List.range iterations).map (fun _ => countMatches re text)
    BenchOutcome.ran match_count

end BenchRealistic

/-- C3 counterexample: in bench_rust_realistic.rs a failing pattern does not
produce a per-pattern "COMPILE FAILED" skip — `Regex::new(pattern).unwrap()`
panics and the run aborts. Instantiated with a concrete engine that rejects
the pattern. -/
theorem c3_regex_compile_fail_counterexample :
    BenchRealistic.benchmark_pattern Unit (fun _ => none) (fun _ _ => 0)
      ("Email") ("[bad") ("text") 1000
      = BenchOutcome.panicked ("unwrap on Err: regex compile failed") ∧
    BenchRealistic.benchmark_pattern Unit (fun _ => none) (fun _ _ => 0)
      ("Email") ("[bad") ("text") 1000
      ≠ BenchOutcome.skipped ("Email" ++ " COMPILE FAILED") := by
  exact ⟨rfl, by decide⟩

/-- C3 amended: only bench_rust.rs handles a pattern that fails to compile as a
per-pattern skip printing "COMPILE FAILED", returning normally so the run
continues with the remaining patterns (one outcome per pattern); in
bench_rust_realistic.rs the same failure panics via `.unwrap()` and aborts the
program. -/
theorem c3_regex_compile_fail_amended (RE : Type) (compile : String → Option RE)
    (countMatches : RE → String → Nat) (name pattern text : String)
    (iterations : Nat) (h : compile pattern = none) :
    BenchRust.benchmark_pattern RE compile countMatches name pattern text iterations
      = BenchOutcome.skipped (name ++ " COMPILE FAILED") ∧
    BenchRealistic.benchmark_pattern RE compile countMatches name pattern text iterations
      = BenchOutcome.panicked ("unwrap on Err: regex compile failed") ∧
    ∀ pairs : List (String × String),
      (BenchRust.run RE compile countMatches text pairs).length = pairs.length := by
  refine ⟨?_, ?_, fun pairs => List.length_map _ _⟩
  · rw [BenchRust.benchmark_pattern, h]
  · rw [BenchRealistic.benchmark_pattern, h]

theorem c3_regex_compile_fail_amended_witness :
    ((fun _ : String => (none : Option Unit)) ("[bad") = none) ∧
    BenchRust.benchmark_pattern Unit (fun _ => none) (fun _ _ => 0)
      ("Email") ("[bad") ("text") 10000
      = BenchOutcome.skipped ("Email" ++ " COMPILE FAILED") :=
  ⟨rfl, (c3_regex_compile_fail_amended Unit (fun _ => none) (fun _ _ => 0)
    ("Email") ("[bad") ("text") 10000 rfl).1⟩

/-- C6: the match count reported by `benchmark_pattern` is a deterministic
function of the pattern and the input text alone: for a fixed engine, two runs
on the same pattern and text — even with different benchmark iteration
counts — produce identical outcomes, hence the same match count. -/
theorem c6_regex_count_deterministic (RE : Type) (compile : String → Option RE)
    (countMatches : RE → String → Nat) (name pattern text : String)
    (iters1 iters2 : Nat) :
    BenchRust.benchmark_pattern RE compile countMatches name pattern text iters1
      = BenchRust.benchmark_pattern RE compile countMatches name pattern text iters2 ∧
    BenchRealistic.benchmark_pattern RE compile countMatches name pattern text iters1
      = BenchRealistic.benchmark_pattern RE compile countMatches name pattern text iters2 :=
  ⟨rfl, rfl⟩

/-! ## Fixed-path input-file reads

Three programs read a fixed-path file as their first step:
bench_rust.rs (`load_data`, `.expect("Failed to read bench_data.txt")`),
bench_rust_realistic.rs (`.expect("Failed to read file")`) and the JSON
stringify benchmark (`.unwrap()`). The OS read enters the embedding as an
`Option String` (`none` = missing/unreadable); `.expect`/`.unwrap` turn `none`
into an immediate panic, modelled as `Except.error` carrying the message. -/

def load_data (readResult : Option String) : Except String String :=
  match readResult with
  | some s => Except.ok s
  | none => Except.error ("Failed to read bench_data.txt")

namespace BenchRealistic

def readInput (readResult : Option String) : Except String String :=
  match readResult with
  | some s => Except.ok s
  | none => Except.error ("Failed to read file")

end BenchRealistic

namespace Stringify

def readInput (readResult : Option String) : Except String String :=
  match readResult with
  | some s => Except.ok s
  | none => Except.error ("called unwrap on an Err value")

end Stringify

/-- C5: in each of the three programs that read a fixed-path input file, the
first step aborts with a message exactly when the read fails: a failed read
gives an immediate `error` (panic, before any benchmark work), and a successful
read never aborts at that step. -/
theorem c5_read_abort_iff (r : Option String) :
    ((load_data r).isOk = false ↔ r = none) ∧
    ((BenchRealistic.readInput r).isOk = false ↔ r = none) ∧
    ((Stringify.readInput r).isOk = false ↔ r = none) ∧
    load_data none = Except.error ("Failed to read bench_data.txt") ∧
    BenchRealistic.readInput none = Except.error ("Failed to read file") ∧
    Stringify.readInput none = Except.error ("called unwrap on an Err value") := by
  refine ⟨?_, ?_, ?_, rfl, rfl, rfl⟩ <;>
    cases r <;>
      simp [load_data, BenchRealistic.readInput, Stringify.readInput,
        Except.isOk, Except.toBool]

theorem c4_benchio_total_witness : BenchIo.worker 7 = 7 :=
  c4_benchio_total.1 7

theorem c5_read_abort_iff_witness :
    (load_data none).isOk = false ∧ (Stringify.readInput none).isOk = false :=
  ⟨((c5_read_abort_iff none).1).mpr rfl, ((c5_read_abort_iff none).2.2.1).mpr rfl⟩

theorem c6_regex_count_deterministic_witness :
    BenchRust.benchmark_pattern Unit (fun _ => some ()) (fun _ _ => 3)
      ("Digits") ("[0-9]+") ("a12b") 1
    = BenchRust.benchmark_pattern Unit (fun _ => some ()) (fun _ _ => 3)
      ("Digits") ("[0-9]+") ("a12b") 2 :=
  (c6_regex_count_deterministic Unit (fun _ => some ()) (fun _ _ => 3)
    ("Digits") ("[0-9]+") ("a12b") 1 2).1
